import Mathlib

/-!
Shallow embedding of the `auto-store` browser-automation support layer:
the `PlaywrightService`/`PlaywrightManager` browser, context and page pool
(`src/src/playwright.service.ts` and the unnamed manager variant), the
parallel batch-processing utilities, and the `RabbitMQService` messaging
client cache.  JavaScript `Map`s are modelled as insertion-ordered
association lists, live browser objects as natural-number handles, and the
single-threaded event loop as explicit state passing.
-/

namespace AutoStore

/-! ## Association-list model of a JavaScript `Map` -/

/-- The `Map.get(k)`: first entry with key `k`, if any. -/
def alistGet {β : Type} (l : List (String × β)) (k : String) : Option β :=
  (l.find? (fun e => e.1 = k)).map (fun e => e.2)

/-- The `Map.set(k, v)`: replace the entry for `k` if present, else append. -/
def alistSet {β : Type} (l : List (String × β)) (k : String) (v : β) :
    List (String × β) :=
  if (l.find? (fun e => e.1 = k)).isSome then
    l.map (fun e => if e.1 = k then (k, v) else e)
  else
    l ++ [(k, v)]

/-- The `Map.delete(k)`: drop every entry with key `k`. -/
def alistDelete {β : Type} (l : List (String × β)) (k : String) :
    List (String × β) :=
  l.filter (fun e => ¬ e.1 = k)

/-! ## `splitIntoChunks` (playwright.service.ts lines 563–572)

```
splitIntoChunks<T>(items: T[], chunkCount: number): T[][] {
  const chunkSize = Math.ceil(items.length / chunkCount);
  const chunks: T[][] = [];
  for (let i = 0; i < items.length; i += chunkSize) {
    chunks.push(items.slice(i, i + chunkSize));
  }
  return chunks;
}
```

The loop index `i` advances by `chunkSize` each iteration; since
`chunkSize ≥ 1` whenever `items` is non-empty and `chunkCount ≥ 1`, at most
`items.length` iterations occur, which we use as structural fuel.
(`chunkCount = 0` makes the JS division produce `Infinity`; every claim
restricts to `chunkCount ≥ 1`.) -/

/-- The `for (let i = 0; i < items.length; i += chunkSize)` loop,
with fuel bounding the number of iterations. -/
def chunksGo {α : Type} (items : List α) (chunkSize : Nat) :
    Nat → Nat → List (List α)
  | 0, _ => []
  | fuel + 1, i =>
    if i < items.length then
      ((items.drop i).take chunkSize) :: chunksGo items chunkSize fuel (i + chunkSize)
    else
      []

/-- The `splitIntoChunks(items, chunkCount)`: `chunkSize = ceil(length / chunkCount)`,
then slice off `chunkSize`-long pieces from the front. -/
def splitIntoChunks {α : Type} (items : List α) (chunkCount : Nat) :
    List (List α) :=
  chunksGo items ((items.length + (chunkCount - 1)) / chunkCount) items.length 0

/-! ## `processItemsInParallel` (playwright.service.ts lines 585–643)

Each chunk is processed strictly in order on its own page; the per-item
`try`/`catch` is modelled by `processItemFn` returning `Option R`
(`none` = the call threw).  `onBatchComplete` invocations are recorded as
the list `flushes` of the batches passed to it; the shared counters and
`allResults` are summed over chunks (the event-loop interleaving of chunks
permutes only the order of `allResults`, never the counts or lengths). -/

/-- Aggregate outcome of one chunk of `processItemsInParallel`. -/
structure ChunkOutcome (R : Type) where
  successCount : Nat
  failCount : Nat
  results : List R
  flushes : List (List R)
deriving Repr

/-- The `for (const item of chunk)` loop of `processItemsInParallel`,
carrying the chunk-local `localBatch`; after the loop, a non-empty
leftover batch is flushed once more. -/
def processChunkLoop {T R : Type} (processItemFn : T → Option R)
    (batchSize : Nat) : List T → List R → ChunkOutcome R
  | [], localBatch =>
    { successCount := 0, failCount := 0, results := [],
      flushes := if 0 < localBatch.length then [localBatch] else [] }
  | item :: rest, localBatch =>
    match processItemFn item with
    | some result =>
      let lb := localBatch ++ [result]
      if batchSize ≤ lb.length then
        let r := processChunkLoop processItemFn batchSize rest []
        { successCount := r.successCount + 1, failCount := r.failCount,
          results := result :: r.results, flushes := lb :: r.flushes }
      else
        let r := processChunkLoop processItemFn batchSize rest lb
        { successCount := r.successCount + 1, failCount := r.failCount,
          results := result :: r.results, flushes := r.flushes }
    | none =>
      let r := processChunkLoop processItemFn batchSize rest localBatch
      { successCount := r.successCount, failCount := r.failCount + 1,
        results := r.results, flushes := r.flushes }

/-- The `chunks.map(async (chunk, pageIndex) => ...)`: every chunk runs the
item loop on its own page (index `i`); the shared counters, `allResults`
and the batch flushes are combined across chunks. -/
def processChunks {T R : Type} (processItemFn : Nat → T → Option R)
    (batchSize : Nat) : Nat → List (List T) → ChunkOutcome R
  | _, [] => { successCount := 0, failCount := 0, results := [], flushes := [] }
  | i, chunk :: more =>
    let r := processChunkLoop (processItemFn i) batchSize chunk []
    let rest := processChunks processItemFn batchSize (i + 1) more
    { successCount := r.successCount + rest.successCount,
      failCount := r.failCount + rest.failCount,
      results := r.results ++ rest.results,
      flushes := r.flushes ++ rest.flushes }

/-- The `processItemsInParallel(pages, items, processItemFn, batchSize, ...)`:
splits `items` into `pages.length` chunks and processes them; `numPages`
stands for `pages.length`, and the page passed to `processItemFn` is
identified by its chunk index. -/
def processItemsInParallel {T R : Type} (processItemFn : Nat → T → Option R)
    (batchSize : Nat) (items : List T) (numPages : Nat) : ChunkOutcome R :=
  processChunks processItemFn batchSize 0 (splitIntoChunks items numPages)

/-- Specification-side grouping of a list into consecutive groups of `b`
elements (last group possibly smaller), used to state the batch-flush
property. -/
def groupsOf {α : Type} (b : Nat) (l : List α) : List (List α) :=
  match l with
  | [] => []
  | x :: xs =>
    if h : b = 0 then []
    else (x :: xs).take b :: groupsOf b ((x :: xs).drop b)
termination_by l.length
decreasing_by
  simp only [List.length_drop, List.length_cons]
  omega

/-- The concrete processItemFn of the C3 scenario: items `1..10`, with the
items at 1-indexed positions 3 and 7 (i.e. values 3 and 7) failing. -/
def failAt3and7 : Nat → Nat → Option Nat :=
  fun _ n => if n = 3 ∨ n = 7 then none else some n

/-! ## Browser, context and page pool (`PlaywrightService` /
`PlaywrightManager`)

Live playwright objects (browser, contexts, pages) are modelled by
natural-number handles allocated from a counter `nextId`; closing an object
records its handle in the corresponding `closed*` list.  Operations that
`await` are pure state transformers here (single-threaded event loop, no
interleaving within one operation). -/

/-- The `BrowserOption` union type `'chromium' | 'firefox' | 'webkit'`. -/
inductive BrowserOption where
  | chromium
  | firefox
  | webkit
deriving DecidableEq, Repr

/-- The `browserType().name()` for the engine a browser was launched with. -/
def BrowserOption.name : BrowserOption → String
  | .chromium => "chromium"
  | .firefox => "firefox"
  | .webkit => "webkit"

/-- A live playwright `Page` object: its identity, and the context it was
created in (what `page.context()` returns). -/
structure PwPage where
  handle : Nat
  ctxHandle : Nat
deriving DecidableEq, Repr

/-- The `PageInfo` of the service variant: `{ page, contextId }`. -/
structure PageInfo where
  page : PwPage
  contextId : String
deriving DecidableEq, Repr

/-- Instance state of `PlaywrightService` (the `PlaywrightManager` variant
differs only in storing `Page` instead of `PageInfo` in `pagePool`). -/
structure PwState where
  hasBrowser : Bool
  browserHandle : Nat
  browserEngine : BrowserOption
  browserConnected : Bool
  browserContexts : Nat
  isInitialized : Bool
  pagePool : List (String × PageInfo)
  contextPool : List (String × Nat)
  shouldUseHeadless : Bool
  selectedBrowserOption : BrowserOption
  closedPages : List Nat
  closedContexts : List Nat
  closedBrowsers : List Nat
  nextId : Nat
deriving DecidableEq, Repr

/-- The `page.isClosed()`. -/
def pageIsClosed (s : PwState) (p : PwPage) : Bool :=
  s.closedPages.contains p.handle

/-- The `setConfig(headless, browserOption)`: stores the settings without
touching the live browser. -/
def setConfig (s : PwState) (headless : Bool) (browserOption : BrowserOption) :
    PwState :=
  { s with shouldUseHeadless := headless,
           selectedBrowserOption := browserOption }

/-- The `this.browserType.launch(...)` followed by stamping `_instanceId`:
creates a fresh connected browser of the selected engine with no contexts. -/
def launchBrowser (s : PwState) : Nat × PwState :=
  (s.nextId,
   { s with hasBrowser := true, browserHandle := s.nextId,
            browserEngine := s.selectedBrowserOption,
            browserConnected := true, browserContexts := 0,
            isInitialized := true, nextId := s.nextId + 1 })

/-- The `releasePage(pageId)`: close the pooled page if present (close errors
are swallowed), then unconditionally evict it from the pool. -/
def releasePage (s : PwState) (pageId : String) : PwState :=
  match alistGet s.pagePool pageId with
  | some pi =>
    { s with closedPages := pi.page.handle :: s.closedPages,
             pagePool := alistDelete s.pagePool pageId }
  | none => s

/-- The `releaseContext(contextId)`: release every pooled page whose
`page.context()` is the target context, then close and evict the context
itself. -/
def releaseContext (s : PwState) (contextId : String) : PwState :=
  match alistGet s.contextPool contextId with
  | some ctx =>
    let pids := (s.pagePool.filter
      (fun e => e.2.page.ctxHandle = ctx)).map (fun e => e.1)
    let s1 := pids.foldl releasePage s
    { s1 with closedContexts := ctx :: s1.closedContexts,
              contextPool := alistDelete s1.contextPool contextId,
              browserContexts := s1.browserContexts - 1 }
  | none => s

/-- The `closeAll()`: release every page, then every context, then close the
browser (if one was ever created) and clear the initialized flag. -/
def closeAll (s : PwState) : PwState :=
  let s1 := (s.pagePool.map (fun e => e.1)).foldl releasePage s
  let s2 := (s1.contextPool.map (fun e => e.1)).foldl releaseContext s1
  if s2.hasBrowser then
    { s2 with closedBrowsers := s2.browserHandle :: s2.closedBrowsers,
              browserConnected := false, isInitialized := false }
  else s2

/-- Result of `initializeBrowser()`: how many full teardowns (`closeAll`)
ran, the returned browser, and the final state. -/
structure InitOutcome where
  teardowns : Nat
  browser : Nat
  state : PwState
deriving DecidableEq, Repr

/-- The `initializeBrowser()`: reuse the running browser when its engine name
matches the selected option; otherwise tear everything down first and
launch a fresh browser of the selected engine. -/
def initializeBrowser (s : PwState) : InitOutcome :=
  if s.isInitialized then
    if ¬ s.browserEngine.name = s.selectedBrowserOption.name then
      let s1 := { closeAll s with isInitialized := false }
      let l := launchBrowser s1
      { teardowns := 1, browser := l.1, state := l.2 }
    else
      { teardowns := 0, browser := s.browserHandle, state := s }
  else
    let l := launchBrowser s
    { teardowns := 0, browser := l.1, state := l.2 }

/-- First step of `getOrCreateContext`: `if (!this.isInitialized) await
this.initializeBrowser()`. -/
def ensureBrowser (s : PwState) : PwState :=
  if s.isInitialized then s else (initializeBrowser s).state

/-- Second step of `getOrCreateContext`: when no context is pooled for
`contextId`, create one (`browser.newContext` plus the fingerprint init
script, which has no pool-level effect) and pool it. -/
def ensureContext (s : PwState) (contextId : String) : PwState :=
  if (alistGet s.contextPool contextId).isSome then s
  else
    { s with contextPool := alistSet s.contextPool contextId s.nextId,
             nextId := s.nextId + 1,
             browserContexts := s.browserContexts + 1 }

/-- The `getOrCreateContext(contextId)`: ensure the browser is initialized,
create and pool a context for `contextId` if none is pooled, then look the
context up again, throwing `Failed to create or get context` if the lookup
comes back empty. -/
def getOrCreateContext (s : PwState) (contextId : String) :
    Except String (Nat × PwState) :=
  match alistGet (ensureContext (ensureBrowser s) contextId).contextPool
      contextId with
  | some ctx => .ok (ctx, ensureContext (ensureBrowser s) contextId)
  | none => .error ("Failed to create or get context with ID: " ++ contextId)

/-- The `createPage(contextId, pageId)`: resolve the context, open a fresh page
in it, and pool it under `pageId` together with its owning context id. -/
def createPage (s : PwState) (contextId pageId : String) :
    Except String (PwPage × PwState) :=
  match getOrCreateContext s contextId with
  | .error e => .error e
  | .ok (ctx, s1) =>
    .ok ({ handle := s1.nextId, ctxHandle := ctx },
      { s1 with nextId := s1.nextId + 1,
                pagePool := alistSet s1.pagePool pageId
                  { page := { handle := s1.nextId, ctxHandle := ctx },
                    contextId := contextId } })

/-- The `getPage(pageId)`: `this.pagePool.get(pageId)?.page || null` — returns
the pooled page (whatever its closed state) or `null`; never creates. -/
def getPage (s : PwState) (pageId : String) : Option PwPage :=
  (alistGet s.pagePool pageId).map (fun pi => pi.page)

/-- The page-reuse step shared by `loginToOnchSite` and
`loginToCoupangSite` (both variants): reuse the pooled page if it exists
and is not closed, else create a new page in the requested context. -/
def loginResolvePage (s : PwState) (contextId pageId : String) :
    Except String (PwPage × PwState) :=
  match getPage s pageId with
  | some existingPage =>
    if pageIsClosed s existingPage then createPage s contextId pageId
    else .ok (existingPage, s)
  | none => createPage s contextId pageId

/-- One iteration of the `createParallelPages` loop: reuse the pooled page
when it exists and its recorded `contextId` matches, else create a fresh
page (note: no `isClosed` check here). -/
def parallelPageResolve (s : PwState) (contextId pageId : String) :
    Except String (PwPage × PwState) :=
  match getPage s pageId, alistGet s.pagePool pageId with
  | some existingPage, some pageInfo =>
    if pageInfo.contextId = contextId then .ok (existingPage, s)
    else createPage s contextId pageId
  | _, _ => createPage s contextId pageId

/-- The `for (let i = 0; i < concurrentCount; i++)` loop of
`createParallelPages`, collecting pages in order. -/
def createParallelPagesGo (store cronId : String) :
    PwState → Nat → Nat → Except String (List PwPage × PwState)
  | s, _, 0 => .ok ([], s)
  | s, i, n + 1 =>
    match parallelPageResolve s ("context-" ++ store ++ "-" ++ cronId)
        ("page-" ++ store ++ "-" ++ cronId ++ "-" ++ toString (i + 1)) with
    | .error e => .error e
    | .ok (pg, s1) =>
      match createParallelPagesGo store cronId s1 (i + 1) n with
      | .error e => .error e
      | .ok (pgs, s2) => .ok (pg :: pgs, s2)

/-- The `createParallelPages(store, cronId, concurrentCount)`. -/
def createParallelPages (s : PwState) (store cronId : String)
    (concurrentCount : Nat) : Except String (List PwPage × PwState) :=
  createParallelPagesGo store cronId s 0 concurrentCount

/-- Return value of `getBrowserInfo()`. -/
inductive BrowserInfo where
  | notInitialized
  | initialized (browserType : String) (contexts : Nat) (isConnected : Bool)
      (contextIds : List String) (pageIds : List String)
  | error (message : String)
deriving DecidableEq, Repr

/-- The `getBrowserInfo()` (service variant, lines 495–519): `not_initialized`
when the flag is unset; otherwise a snapshot whose `isConnected` field is
`!this.browser.isConnected()`; `fault` models the browser introspection
calls inside the `try` throwing with the given message. -/
def getBrowserInfo (s : PwState) (fault : Option String) : BrowserInfo :=
  if ¬ s.isInitialized then .notInitialized
  else
    match fault with
    | some msg => .error msg
    | none =>
      .initialized s.browserEngine.name s.browserContexts
        (! s.browserConnected)
        (s.contextPool.map (fun e => e.1)) (s.pagePool.map (fun e => e.1))

/-- The `PlaywrightManager.getBrowserInfo` (part_001 lines 436–460): the
manager variant's body is textually identical to the service variant's. -/
def pmGetBrowserInfo (s : PwState) (fault : Option String) : BrowserInfo :=
  if ¬ s.isInitialized then .notInitialized
  else
    match fault with
    | some msg => .error msg
    | none =>
      .initialized s.browserEngine.name s.browserContexts
        (! s.browserConnected)
        (s.contextPool.map (fun e => e.1)) (s.pagePool.map (fun e => e.1))

/-! ## Coupang login flow -/

/-- The fixed Coupang seller-console OAuth entry URL. -/
def coupangAuthUrl : String :=
  "https://xauth.coupang.com/auth/realms/seller/protocol/openid-connect/auth?response_type=code&client_id=wing&redirect_uri=https%3A%2F%2Fwing.coupang.com%2Fsso%2Flogin?returnUrl%3D%252F&state=ec02db23-2738-48a2-b15e-81d22b32be64&login=true&scope=openid"

/-- Observable page interactions of a login flow. -/
inductive PageAction where
  | goto (url : String)
  | evalLoginCheck
  | fill (selector value : String)
  | press (key : String)
  | waitNetworkIdle
deriving DecidableEq, Repr

/-- Post-resolution body of `loginToCoupangSite` (service variant, lines
454–486): navigate, run the `.cp-loginpage__bg` detector (its result is
`isLoginPage`), and only if the login form is present fill `#username` and
`#password`, press Enter and wait for network idle. -/
def coupangLoginSteps (isLoginPage : Bool) (email password : String) :
    List PageAction :=
  [.goto coupangAuthUrl, .evalLoginCheck] ++
    (if isLoginPage then
      [.fill "#username" email, .fill "#password" password,
       .press "Enter", .waitNetworkIdle]
    else [])

/-- Post-resolution body of `PlaywrightManager.loginToCoupangSite`
(part_001 lines 396–427): identical except there is no network-idle wait
after the Enter press. -/
def pmCoupangLoginSteps (isLoginPage : Bool) (email password : String) :
    List PageAction :=
  [.goto coupangAuthUrl, .evalLoginCheck] ++
    (if isLoginPage then
      [.fill "#username" email, .fill "#password" password, .press "Enter"]
    else [])

/-- The engine check opening both login flows: `if (!this.isInitialized ||
this.browser.browserType().name() !== browserOption) await this.init(true,
browserOption)`. -/
def loginEnsureEngine (s : PwState) (browserOption : BrowserOption) :
    PwState :=
  if ¬ s.isInitialized ∨ ¬ s.browserEngine.name = browserOption.name then
    (initializeBrowser (setConfig s true browserOption)).state
  else s

/-- The `loginToCoupangSite(contextId, pageId, browserOption)` (service
variant): ensure the browser engine matches, resolve (reuse or create) the
page, then run the navigation/detection/fill steps; returns the resolved
page. -/
def loginToCoupangSite (s : PwState) (contextId pageId : String)
    (browserOption : BrowserOption) (isLoginPage : Bool)
    (email password : String) :
    Except String (PwPage × PwState × List PageAction) :=
  match loginResolvePage (loginEnsureEngine s browserOption) contextId
      pageId with
  | .error e => .error e
  | .ok (page, s1) =>
    .ok (page, s1, coupangLoginSteps isLoginPage email password)

/-! ## `RabbitMQService` (part_001 lines 471–561) -/

/-- A cached `{ client, connected }` entry. -/
structure ClientInfo where
  client : Nat
  connected : Bool
deriving DecidableEq, Repr

/-- Instance state of `RabbitMQService`: the per-queue client map, plus a
handle counter standing for `ClientProxyFactory.create`. -/
structure RabbitState where
  clients : List (String × ClientInfo)
  nextClient : Nat
deriving DecidableEq, Repr

/-- The `reconnectClient(queue, client)`: try `client.connect()`
(`connectSucceeds` models its outcome); on success re-cache the client as
connected; on failure log and leave the map unchanged. -/
def reconnectClient (s : RabbitState) (queue : String) (client : Nat)
    (connectSucceeds : Bool) : RabbitState :=
  if connectSucceeds then
    { s with clients :=
        alistSet s.clients queue { client := client, connected := true } }
  else s

/-- Result of `createClient`: the client handed back, the new state, and
how many client constructions / reconnect attempts the call performed. -/
structure CreateClientOutcome where
  client : Nat
  state : RabbitState
  constructions : Nat
  reconnectAttempts : Nat
deriving DecidableEq, Repr

/-- The `createClient(queue)`: return the cached client for `queue`
(reconnecting first when it is marked disconnected), or construct, cache
and return a fresh one marked connected. -/
def createClient (s : RabbitState) (queue : String) (connectSucceeds : Bool) :
    CreateClientOutcome :=
  match alistGet s.clients queue with
  | some info =>
    if info.connected then
      { client := info.client, state := s,
        constructions := 0, reconnectAttempts := 0 }
    else
      { client := info.client,
        state := reconnectClient s queue info.client connectSucceeds,
        constructions := 0, reconnectAttempts := 1 }
  | none =>
    { client := s.nextClient,
      state := { clients := alistSet s.clients queue
                   { client := s.nextClient, connected := true },
                 nextClient := s.nextClient + 1 },
      constructions := 1, reconnectAttempts := 0 }

/-- The `{ pattern, payload }` envelope both `emit` and `send` build. -/
structure Envelope (P : Type) where
  pattern : String
  payload : P
deriving DecidableEq, Repr

/-- A message as handed to `client.emit`/`client.send`: the first argument
(the transport-level message pattern) and the envelope. -/
structure DispatchedMessage (P : Type) where
  client : Nat
  transportPattern : String
  envelope : Envelope P
deriving DecidableEq, Repr

/-- Result of `emit`/`send`: the dispatched message, the new state, and the
construction/reconnect counts of the underlying `createClient` call. -/
structure EmitOutcome (P : Type) where
  message : DispatchedMessage P
  state : RabbitState
  constructions : Nat
  reconnectAttempts : Nat
deriving DecidableEq, Repr

/-- The `emit(queue, pattern, payload)`: obtain the client for `queue`, then
`client.emit(queue, { pattern, payload })` — the queue name itself is the
transport-level pattern. -/
def emit {P : Type} (s : RabbitState) (queue msgPattern : String)
    (payload : P) (connectSucceeds : Bool) : EmitOutcome P :=
  let r := createClient s queue connectSucceeds
  { message := { client := r.client, transportPattern := queue,
                 envelope := { pattern := msgPattern, payload := payload } },
    state := r.state, constructions := r.constructions,
    reconnectAttempts := r.reconnectAttempts }

/-- The `send(queue, pattern, payload)`: same dispatch shape as `emit`, via
`client.send(queue, { pattern, payload })`. -/
def send {P : Type} (s : RabbitState) (queue msgPattern : String)
    (payload : P) (connectSucceeds : Bool) : EmitOutcome P :=
  let r := createClient s queue connectSucceeds
  { message := { client := r.client, transportPattern := queue,
                 envelope := { pattern := msgPattern, payload := payload } },
    state := r.state, constructions := r.constructions,
    reconnectAttempts := r.reconnectAttempts }

/-! ## Concrete states used by counterexamples and witnesses -/

/-- A page handle that has been closed behind the pool's back. -/
def stalePage : PwPage := { handle := 0, ctxHandle := 10 }

/-- A service state whose pooled page `"p"` has been closed (e.g. by the
browser) without `releasePage` ever running. -/
def staleState : PwState :=
  { hasBrowser := true, browserHandle := 1, browserEngine := .chromium,
    browserConnected := true, browserContexts := 1, isInitialized := true,
    pagePool := [("p", { page := stalePage, contextId := "c" })],
    contextPool := [("c", 10)], shouldUseHeadless := true,
    selectedBrowserOption := .chromium, closedPages := [0],
    closedContexts := [], closedBrowsers := [], nextId := 11 }

/-- A state with a running chromium browser and live sessions/pages, with
firefox selected as the next engine. -/
def switchState : PwState :=
  { hasBrowser := true, browserHandle := 1, browserEngine := .chromium,
    browserConnected := true, browserContexts := 1, isInitialized := true,
    pagePool := [("p", { page := { handle := 3, ctxHandle := 2 },
                         contextId := "c" })],
    contextPool := [("c", 2)], shouldUseHeadless := true,
    selectedBrowserOption := .firefox, closedPages := [],
    closedContexts := [], closedBrowsers := [], nextId := 4 }

/-! ## Lemmas about chunking -/

theorem chunksGo_flatten {α : Type} (items : List α) (c : Nat) (hc : 0 < c) :
    ∀ fuel i, items.length - i ≤ fuel →
      (chunksGo items c fuel i).flatten = items.drop i := by
  intro fuel
  induction fuel with
  | zero =>
    intro i hi
    have h : items.length ≤ i := by omega
    simp [chunksGo, List.drop_eq_nil_of_le h]
  | succ n ih =>
    intro i hi
    by_cases h : i < items.length
    · simp only [chunksGo, if_pos h, List.flatten_cons]
      rw [ih (i + c) (by omega)]
      have hd : items.drop (i + c) = (items.drop i).drop c := by
        rw [List.drop_drop]
      rw [hd]
      exact List.take_append_drop c (items.drop i)
    · simp only [chunksGo, if_neg h, List.flatten_nil]
      exact (List.drop_eq_nil_of_le (by omega)).symm

theorem chunksGo_ne_nil {α : Type} (items : List α) (c fuel i : Nat)
    (h : chunksGo items c fuel i ≠ []) : i < items.length := by
  cases fuel with
  | zero => simp [chunksGo] at h
  | succ n =>
    by_cases hi : i < items.length
    · exact hi
    · simp [chunksGo, hi] at h

theorem chunksGo_mem_length {α : Type} (items : List α) (c : Nat) (hc : 0 < c) :
    ∀ fuel i, ∀ l ∈ chunksGo items c fuel i, 0 < l.length ∧ l.length ≤ c := by
  intro fuel
  induction fuel with
  | zero => intro i l hl; simp [chunksGo] at hl
  | succ n ih =>
    intro i l hl
    by_cases h : i < items.length
    · simp only [chunksGo, if_pos h, List.mem_cons] at hl
      rcases hl with rfl | hl
      · constructor
        · simp [List.length_take, List.length_drop]
          omega
        · simp [List.length_take]
      · exact ih (i + c) l hl
    · simp [chunksGo, h] at hl

theorem chunksGo_dropLast_length {α : Type} (items : List α) (c : Nat)
    (hc : 0 < c) :
    ∀ fuel i, ∀ l ∈ (chunksGo items c fuel i).dropLast, l.length = c := by
  intro fuel
  induction fuel with
  | zero => intro i l hl; simp [chunksGo] at hl
  | succ n ih =>
    intro i l hl
    by_cases h : i < items.length
    · simp only [chunksGo, if_pos h] at hl
      by_cases hr : chunksGo items c n (i + c) = []
      · rw [hr] at hl
        simp at hl
      · rw [List.dropLast_cons_of_ne_nil hr, List.mem_cons] at hl
        rcases hl with rfl | hl
        · have hlt : i + c < items.length := chunksGo_ne_nil items c n (i + c) hr
          simp [List.length_take, List.length_drop]
          omega
        · exact ih (i + c) l hl
    · simp [chunksGo, h] at hl

theorem splitIntoChunks_chunkSize_pos {α : Type} (items : List α) (k : Nat)
    (hk : 1 ≤ k) (hne : items ≠ []) :
    0 < (items.length + (k - 1)) / k := by
  rw [Nat.lt_iff_add_one_le, Nat.zero_add, Nat.one_le_div_iff (by omega)]
  have : 1 ≤ items.length := List.length_pos.mpr hne
  omega

theorem splitIntoChunks_flatten {α : Type} (items : List α) (k : Nat)
    (hk : 1 ≤ k) : (splitIntoChunks items k).flatten = items := by
  by_cases hne : items = []
  · subst hne; rfl
  · unfold splitIntoChunks
    have hc := splitIntoChunks_chunkSize_pos items k hk hne
    rw [chunksGo_flatten items _ hc items.length 0 (by omega)]
    exact List.drop_zero items

/-! ## Lemmas about the per-chunk item loop -/

theorem countP_isSome_add_isNone {T R : Type} (f : T → Option R) (l : List T) :
    l.countP (fun t => (f t).isSome) + l.countP (fun t => (f t).isNone)
      = l.length := by
  induction l with
  | nil => rfl
  | cons t ts ih =>
    cases hf : f t <;> simp [List.countP_cons, hf] <;> omega

theorem processChunkLoop_counts {T R : Type} (f : T → Option R) (b : Nat) :
    ∀ (chunk : List T) (acc : List R),
      (processChunkLoop f b chunk acc).successCount
          = chunk.countP (fun t => (f t).isSome) ∧
      (processChunkLoop f b chunk acc).failCount
          = chunk.countP (fun t => (f t).isNone) ∧
      (processChunkLoop f b chunk acc).results = chunk.filterMap f := by
  intro chunk
  induction chunk with
  | nil => intro acc; simp [processChunkLoop]
  | cons t ts ih =>
    intro acc
    simp only [processChunkLoop]
    cases hf : f t with
    | some r =>
      by_cases hb : b ≤ (acc ++ [r]).length
      · simp only [if_pos hb]
        obtain ⟨h1, h2, h3⟩ := ih []
        simp [List.countP_cons, List.filterMap_cons, hf, h1, h2, h3]
      · simp only [if_neg hb]
        obtain ⟨h1, h2, h3⟩ := ih (acc ++ [r])
        simp [List.countP_cons, List.filterMap_cons, hf, h1, h2, h3]
    | none =>
      obtain ⟨h1, h2, h3⟩ := ih acc
      simp [List.countP_cons, List.filterMap_cons, hf, h1, h2, h3]

theorem processChunks_counts {T R : Type} (f : Nat → T → Option R) (b : Nat) :
    ∀ (cs : List (List T)) (i : Nat),
      (processChunks f b i cs).successCount + (processChunks f b i cs).failCount
          = cs.flatten.length ∧
      (processChunks f b i cs).results.length
          = (processChunks f b i cs).successCount := by
  intro cs
  induction cs with
  | nil => intro i; simp [processChunks]
  | cons c more ih =>
    intro i
    obtain ⟨h1, h2⟩ := ih (i + 1)
    obtain ⟨g1, g2, g3⟩ := processChunkLoop_counts (f i) b c []
    constructor
    · simp only [processChunks, List.flatten_cons, List.length_append]
      rw [g1, g2, ← h1]
      have := countP_isSome_add_isNone (f i) c
      omega
    · simp only [processChunks, List.length_append]
      rw [g3, h2, g1]
      have : (c.filterMap (f i)).length = c.countP (fun t => ((f i) t).isSome) :=
        List.length_filterMap_eq_countP (f i) c
      omega

theorem processChunks_countP {T R : Type} (g : T → Option R) (b : Nat) :
    ∀ (cs : List (List T)) (i : Nat),
      (processChunks (fun _ => g) b i cs).successCount
          = cs.flatten.countP (fun t => (g t).isSome) ∧
      (processChunks (fun _ => g) b i cs).failCount
          = cs.flatten.countP (fun t => (g t).isNone) := by
  intro cs
  induction cs with
  | nil => intro i; simp [processChunks]
  | cons c more ih =>
    intro i
    obtain ⟨h1, h2⟩ := ih (i + 1)
    obtain ⟨g1, g2, _⟩ := processChunkLoop_counts g b c []
    simp only [processChunks, List.flatten_cons, List.countP_append]
    rw [g1, g2, h1, h2]
    exact ⟨rfl, rfl⟩

/-! ## Lemmas about batch flushing -/

theorem groupsOf_nil {α : Type} (b : Nat) : groupsOf b ([] : List α) = [] := by
  simp [groupsOf]

theorem groupsOf_eq_cons {α : Type} (b : Nat) (hb : 0 < b) (l : List α)
    (hl : l ≠ []) : groupsOf b l = l.take b :: groupsOf b (l.drop b) := by
  obtain ⟨x, xs, rfl⟩ := List.exists_cons_of_ne_nil hl
  rw [groupsOf]
  simp [Nat.pos_iff_ne_zero.mp hb]

theorem processChunkLoop_flushes {T R : Type} (f : T → Option R) (b : Nat)
    (hb : 1 ≤ b) :
    ∀ (chunk : List T) (acc : List R), acc.length < b →
      (processChunkLoop f b chunk acc).flushes
        = groupsOf b (acc ++ chunk.filterMap f) := by
  intro chunk
  induction chunk with
  | nil =>
    intro acc hacc
    simp only [processChunkLoop, List.filterMap_nil, List.append_nil]
    by_cases h0 : acc = []
    · simp [h0, groupsOf_nil]
    · rw [groupsOf_eq_cons b (by omega) acc h0]
      have h1 : 0 < acc.length := List.length_pos.mpr h0
      have h2 : acc.length ≤ b := by omega
      rw [List.take_of_length_le h2, List.drop_eq_nil_of_le h2, groupsOf_nil]
      simp [h1]
  | cons t ts ih =>
    intro acc hacc
    simp only [processChunkLoop]
    cases hf : f t with
    | some r =>
      have h1 : (acc ++ [r]).length = acc.length + 1 := by simp
      have hassoc : acc ++ (t :: ts).filterMap f
          = (acc ++ [r]) ++ ts.filterMap f := by
        simp [List.filterMap_cons, hf]
      by_cases hble : b ≤ (acc ++ [r]).length
      · simp only [if_pos hble]
        have hlb : (acc ++ [r]).length = b := by omega
        have hne : (acc ++ [r]) ++ ts.filterMap f ≠ [] := by
          simp
        rw [hassoc, groupsOf_eq_cons b (by omega) _ hne,
          List.take_left' hlb, List.drop_left' hlb,
          ih [] (by simp only [List.length_nil]; omega)]
        simp
      · simp only [if_neg hble]
        rw [ih (acc ++ [r]) (by omega), hassoc]
    | none =>
      rw [ih acc hacc]
      have : (t :: ts).filterMap f = ts.filterMap f := by
        simp [List.filterMap_cons, hf]
      rw [this]

/-! ## Claim theorems: chunking and parallel processing -/

/-- C1: for every list `items` and chunk count `k ≥ 1`, `splitIntoChunks`
divides `items` into contiguous chunks of size `ceil(items.length / k)`
(every chunk but the last has exactly that size, the last is non-empty and
no larger), and the concatenation of all chunks in order equals the
original list; `splitIntoChunks([1..10], 3)` yields chunk sizes `[4, 4, 2]`
and `splitIntoChunks([], 3)` yields an empty list of chunks. -/
theorem splitIntoChunks_correct {α : Type} (items : List α) (k : Nat)
    (hk : 1 ≤ k) :
    (splitIntoChunks items k).flatten = items ∧
    (∀ l ∈ splitIntoChunks items k,
        0 < l.length ∧ l.length ≤ (items.length + (k - 1)) / k) ∧
    (∀ l ∈ (splitIntoChunks items k).dropLast,
        l.length = (items.length + (k - 1)) / k) ∧
    (splitIntoChunks (List.range 10) 3).map List.length = [4, 4, 2] ∧
    splitIntoChunks ([] : List Nat) 3 = [] := by
  refine ⟨splitIntoChunks_flatten items k hk, ?_, ?_, by decide, by decide⟩
  · intro l hl
    by_cases hne : items = []
    · subst hne; simp [splitIntoChunks, chunksGo] at hl
    · exact chunksGo_mem_length items _
        (splitIntoChunks_chunkSize_pos items k hk hne) items.length 0 l hl
  · intro l hl
    by_cases hne : items = []
    · subst hne; simp [splitIntoChunks, chunksGo] at hl
    · exact chunksGo_dropLast_length items _
        (splitIntoChunks_chunkSize_pos items k hk hne) items.length 0 l hl

/-- Witness for `splitIntoChunks_correct` at `items = [0..9]`, `k = 3`. -/
theorem splitIntoChunks_correct_witness :
    (splitIntoChunks (List.range 10) 3).flatten = List.range 10 ∧
    (splitIntoChunks (List.range 10) 3).map List.length = [4, 4, 2] :=
  ⟨(splitIntoChunks_correct (List.range 10) 3 (by decide)).1,
   (splitIntoChunks_correct (List.range 10) 3 (by decide)).2.2.2.1⟩

/-- C3: for any non-empty page set and any items, `processItemsInParallel`
reports `successCount` = number of items whose `processItemFn` call
succeeded, `failCount` = number whose call threw, and
`results.length = successCount`; per-item failures abort nothing, so the
counts always total `items.length`.  With 2 pages and items `1..10` where
items 3 and 7 (1-indexed) fail, it reports `successCount = 8`,
`failCount = 2`, `results.length = 8`. -/
theorem processItemsInParallel_counts {T R : Type}
    (f : Nat → T → Option R) (g : T → Option R) (b : Nat) (items : List T)
    (numPages : Nat) (hp : 1 ≤ numPages) :
    (processItemsInParallel f b items numPages).successCount
        + (processItemsInParallel f b items numPages).failCount
        = items.length ∧
    (processItemsInParallel f b items numPages).results.length
        = (processItemsInParallel f b items numPages).successCount ∧
    (processItemsInParallel (fun _ => g) b items numPages).successCount
        = items.countP (fun t => (g t).isSome) ∧
    (processItemsInParallel (fun _ => g) b items numPages).failCount
        = items.countP (fun t => (g t).isNone) ∧
    (processItemsInParallel failAt3and7 50 (List.range' 1 10) 2).successCount
        = 8 ∧
    (processItemsInParallel failAt3and7 50 (List.range' 1 10) 2).failCount
        = 2 ∧
    (processItemsInParallel failAt3and7 50 (List.range' 1 10) 2).results.length
        = 8 := by
  have hflat := splitIntoChunks_flatten items numPages hp
  obtain ⟨h1, h2⟩ := processChunks_counts f b (splitIntoChunks items numPages) 0
  obtain ⟨h3, h4⟩ := processChunks_countP g b (splitIntoChunks items numPages) 0
  refine ⟨?_, h2, ?_, ?_, by decide, by decide, by decide⟩
  · rw [processItemsInParallel, h1, hflat]
  · rw [processItemsInParallel, h3, hflat]
  · rw [processItemsInParallel, h4, hflat]

/-- Witness for `processItemsInParallel_counts` at the C3 scenario input. -/
theorem processItemsInParallel_counts_witness :
    (processItemsInParallel failAt3and7 50 (List.range' 1 10) 2).successCount
        = 8 ∧
    (processItemsInParallel failAt3and7 50 (List.range' 1 10) 2).failCount
        = 2 ∧
    (processItemsInParallel failAt3and7 50 (List.range' 1 10) 2).results.length
        = 8 := by
  have h := processItemsInParallel_counts failAt3and7 (fun n => failAt3and7 0 n)
    50 (List.range' 1 10) 2 (by decide)
  exact ⟨h.2.2.2.2.1, h.2.2.2.2.2.1, h.2.2.2.2.2.2⟩

/-- C4: within one chunk of `processItemsInParallel`, `onBatchComplete` is
flushed exactly the consecutive groups of `batchSize` successful results,
with the non-empty leftover partial batch flushed once at chunk end; with
`batchSize = 3` and a single chunk of 7 successful items, it is invoked
exactly 3 times with batch sizes `[3, 3, 1]` in order. -/
theorem processChunk_batch_flushes {T R : Type} (f : T → Option R) (b : Nat)
    (hb : 1 ≤ b) (chunk : List T) :
    (processChunkLoop f b chunk []).flushes = groupsOf b (chunk.filterMap f) ∧
    (processChunkLoop (fun n : Nat => some n) 3 (List.range 7) []).flushes.map
        List.length = [3, 3, 1] ∧
    (processChunkLoop (fun n : Nat => some n) 3 (List.range 7) []).flushes.length
        = 3 ∧
    (processItemsInParallel (fun _ (n : Nat) => some n) 3 (List.range 7)
        1).flushes.map List.length = [3, 3, 1] := by
  refine ⟨?_, by decide, by decide, by decide⟩
  have := processChunkLoop_flushes f b hb chunk []
    (by simp only [List.length_nil]; omega)
  simpa using this

/-- Witness for `processChunk_batch_flushes` at `b = 3`, a chunk of 7
always-succeeding items. -/
theorem processChunk_batch_flushes_witness :
    (processChunkLoop (fun n : Nat => some n) 3 (List.range 7) []).flushes
        = groupsOf 3 ((List.range 7).filterMap (fun n => some n)) ∧
    (processChunkLoop (fun n : Nat => some n) 3 (List.range 7) []).flushes.map
        List.length = [3, 3, 1] := by
  have h := processChunk_batch_flushes (fun n : Nat => some n) 3 (by decide)
    (List.range 7)
  exact ⟨h.1, h.2.1⟩

/-! ## Association-list lemmas -/

theorem alistGet_alistSet {β : Type} (k : String) (v : β) :
    ∀ l : List (String × β), alistGet (alistSet l k v) k = some v := by
  intro l
  unfold alistSet
  split
  · rename_i h
    induction l with
    | nil => simp at h
    | cons e es ih =>
      by_cases he : e.1 = k
      · simp [alistGet, List.find?_cons, he]
      · simp only [List.map_cons, if_neg he]
        have h' : (es.find? (fun x => x.1 = k)).isSome := by
          simpa [List.find?_cons, he] using h
        simpa [alistGet, List.find?_cons, he] using ih h'
  · rename_i h
    have hnone : l.find? (fun e => e.1 = k) = none := by
      cases hf : l.find? (fun e => e.1 = k) with
      | none => rfl
      | some e => rw [hf] at h; simp at h
    induction l with
    | nil => simp [alistGet, List.find?_cons]
    | cons e es ih =>
      have he : ¬ e.1 = k := by
        intro hek
        rw [List.find?_cons] at hnone
        simp [hek] at hnone
      have hes : es.find? (fun x => x.1 = k) = none := by
        rw [List.find?_cons] at hnone
        simpa [he] using hnone
      simp only [List.cons_append]
      rw [alistGet, List.find?_cons]
      have : ¬ (decide (e.1 = k) = true) := by simp [he]
      simp only [this, if_neg]
      rw [← alistGet]
      exact ih (by simp [hes]) hes

theorem alistGet_eq_none {β : Type} (l : List (String × β)) (k : String)
    (h : alistGet l k = none) : ∀ e ∈ l, ¬ e.1 = k := by
  intro e he
  have hf : l.find? (fun x => x.1 = k) = none := by
    unfold alistGet at h
    cases hf : l.find? (fun x => x.1 = k) with
    | none => rfl
    | some x => rw [hf] at h; simp at h
  have := List.find?_eq_none.mp hf e he
  simpa using this

/-! ## Pool bookkeeping lemmas -/

theorem releasePage_fields (s : PwState) (k : String) :
    (releasePage s k).contextPool = s.contextPool ∧
    (releasePage s k).hasBrowser = s.hasBrowser ∧
    (releasePage s k).browserHandle = s.browserHandle ∧
    (releasePage s k).browserEngine = s.browserEngine ∧
    (releasePage s k).selectedBrowserOption = s.selectedBrowserOption ∧
    (releasePage s k).isInitialized = s.isInitialized ∧
    (releasePage s k).nextId = s.nextId ∧
    (releasePage s k).browserConnected = s.browserConnected := by
  cases h : alistGet s.pagePool k <;> simp [releasePage, h]

theorem releasePage_pagePool_mem (s : PwState) (k : String) :
    ∀ e ∈ (releasePage s k).pagePool, e ∈ s.pagePool ∧ ¬ e.1 = k := by
  intro e he
  cases h : alistGet s.pagePool k with
  | none =>
    simp only [releasePage, h] at he
    exact ⟨he, alistGet_eq_none s.pagePool k h e he⟩
  | some pi =>
    simp only [releasePage, h, alistDelete] at he
    have := List.mem_filter.mp he
    simpa using this

theorem foldl_releasePage_fields (s : PwState) (ks : List String) :
    ((ks.foldl releasePage s).contextPool = s.contextPool ∧
     (ks.foldl releasePage s).hasBrowser = s.hasBrowser ∧
     (ks.foldl releasePage s).browserHandle = s.browserHandle ∧
     (ks.foldl releasePage s).browserEngine = s.browserEngine ∧
     (ks.foldl releasePage s).selectedBrowserOption
        = s.selectedBrowserOption ∧
     (ks.foldl releasePage s).isInitialized = s.isInitialized ∧
     (ks.foldl releasePage s).nextId = s.nextId ∧
     (ks.foldl releasePage s).browserConnected = s.browserConnected) := by
  induction ks generalizing s with
  | nil => simp
  | cons k ks ih =>
    rw [List.foldl_cons]
    obtain ⟨i1, i2, i3, i4, i5, i6, i7, i8⟩ := ih (releasePage s k)
    obtain ⟨r1, r2, r3, r4, r5, r6, r7, r8⟩ := releasePage_fields s k
    exact ⟨i1.trans r1, i2.trans r2, i3.trans r3, i4.trans r4, i5.trans r5,
      i6.trans r6, i7.trans r7, i8.trans r8⟩

theorem foldl_releasePage_pagePool_mem (ks : List String) (s : PwState) :
    ∀ e ∈ (ks.foldl releasePage s).pagePool, e ∈ s.pagePool := by
  induction ks generalizing s with
  | nil => intro e he; simpa using he
  | cons k ks ih =>
    intro e he
    rw [List.foldl_cons] at he
    exact (releasePage_pagePool_mem s k e (ih (releasePage s k) e he)).1

theorem foldl_releasePage_pagePool_empty :
    ∀ (ks : List String) (s : PwState),
      (∀ e ∈ s.pagePool, e.1 ∈ ks) → (ks.foldl releasePage s).pagePool = [] := by
  intro ks
  induction ks with
  | nil =>
    intro s h
    rw [List.foldl_nil]
    cases hp : s.pagePool with
    | nil => rfl
    | cons e es => exact absurd (h e (by rw [hp]; exact List.mem_cons_self e es)) (List.not_mem_nil e.1)
  | cons k ks ih =>
    intro s h
    rw [List.foldl_cons]
    apply ih
    intro e he
    obtain ⟨hmem, hne⟩ := releasePage_pagePool_mem s k e he
    have := h e hmem
    rw [List.mem_cons] at this
    tauto

theorem releaseContext_fields (s : PwState) (k : String) :
    (releaseContext s k).hasBrowser = s.hasBrowser ∧
    (releaseContext s k).browserHandle = s.browserHandle ∧
    (releaseContext s k).browserEngine = s.browserEngine ∧
    (releaseContext s k).selectedBrowserOption = s.selectedBrowserOption ∧
    (releaseContext s k).isInitialized = s.isInitialized ∧
    (releaseContext s k).nextId = s.nextId ∧
    (releaseContext s k).browserConnected = s.browserConnected := by
  cases h : alistGet s.contextPool k with
  | none => simp [releaseContext, h]
  | some ctx =>
    simp only [releaseContext, h]
    obtain ⟨_, f2, f3, f4, f5, f6, f7, f8⟩ := foldl_releasePage_fields s
      ((s.pagePool.filter (fun e => e.2.page.ctxHandle = ctx)).map
        (fun e => e.1))
    exact ⟨f2, f3, f4, f5, f6, f7, f8⟩

theorem releaseContext_pagePool_mem (s : PwState) (k : String) :
    ∀ e ∈ (releaseContext s k).pagePool, e ∈ s.pagePool := by
  intro e he
  cases h : alistGet s.contextPool k with
  | none => simp only [releaseContext, h] at he; exact he
  | some ctx =>
    simp only [releaseContext, h] at he
    exact foldl_releasePage_pagePool_mem _ s e he

theorem releaseContext_contextPool_mem (s : PwState) (k : String) :
    ∀ e ∈ (releaseContext s k).contextPool, e ∈ s.contextPool ∧ ¬ e.1 = k := by
  intro e he
  cases h : alistGet s.contextPool k with
  | none =>
    simp only [releaseContext, h] at he
    exact ⟨he, alistGet_eq_none s.contextPool k h e he⟩
  | some ctx =>
    simp only [releaseContext, h, alistDelete] at he
    have := List.mem_filter.mp he
    obtain ⟨fcp, _⟩ := foldl_releasePage_fields s
      ((s.pagePool.filter (fun e => e.2.page.ctxHandle = ctx)).map
        (fun e => e.1))
    rw [fcp] at this
    simpa using this

theorem foldl_releaseContext_fields (s : PwState) (ks : List String) :
    ((ks.foldl releaseContext s).hasBrowser = s.hasBrowser ∧
     (ks.foldl releaseContext s).browserHandle = s.browserHandle ∧
     (ks.foldl releaseContext s).browserEngine = s.browserEngine ∧
     (ks.foldl releaseContext s).selectedBrowserOption
        = s.selectedBrowserOption ∧
     (ks.foldl releaseContext s).isInitialized = s.isInitialized ∧
     (ks.foldl releaseContext s).nextId = s.nextId ∧
     (ks.foldl releaseContext s).browserConnected = s.browserConnected) := by
  induction ks generalizing s with
  | nil => simp
  | cons k ks ih =>
    rw [List.foldl_cons]
    obtain ⟨i1, i2, i3, i4, i5, i6, i7⟩ := ih (releaseContext s k)
    obtain ⟨r1, r2, r3, r4, r5, r6, r7⟩ := releaseContext_fields s k
    exact ⟨i1.trans r1, i2.trans r2, i3.trans r3, i4.trans r4, i5.trans r5,
      i6.trans r6, i7.trans r7⟩

theorem foldl_releaseContext_pagePool_mem (ks : List String) (s : PwState) :
    ∀ e ∈ (ks.foldl releaseContext s).pagePool, e ∈ s.pagePool := by
  induction ks generalizing s with
  | nil => intro e he; simpa using he
  | cons k ks ih =>
    intro e he
    rw [List.foldl_cons] at he
    exact releaseContext_pagePool_mem s k e (ih (releaseContext s k) e he)

theorem foldl_releaseContext_contextPool_empty :
    ∀ (ks : List String) (s : PwState),
      (∀ e ∈ s.contextPool, e.1 ∈ ks) →
      (ks.foldl releaseContext s).contextPool = [] := by
  intro ks
  induction ks with
  | nil =>
    intro s h
    rw [List.foldl_nil]
    cases hp : s.contextPool with
    | nil => rfl
    | cons e es => exact absurd (h e (by rw [hp]; exact List.mem_cons_self e es)) (List.not_mem_nil e.1)
  | cons k ks ih =>
    intro s h
    rw [List.foldl_cons]
    apply ih
    intro e he
    obtain ⟨hmem, hne⟩ := releaseContext_contextPool_mem s k e he
    have := h e hmem
    rw [List.mem_cons] at this
    tauto

theorem closeAll_pools (s : PwState) :
    (closeAll s).pagePool = [] ∧ (closeAll s).contextPool = [] := by
  have h1 : ((s.pagePool.map (fun e => e.1)).foldl releasePage s).pagePool
      = [] :=
    foldl_releasePage_pagePool_empty _ s
      (fun e he => List.mem_map_of_mem (fun e => e.1) he)
  set s1 := (s.pagePool.map (fun e => e.1)).foldl releasePage s with hs1
  have h2 : ((s1.contextPool.map (fun e => e.1)).foldl releaseContext
      s1).contextPool = [] :=
    foldl_releaseContext_contextPool_empty _ s1
      (fun e he => List.mem_map_of_mem (fun e => e.1) he)
  have h3 : ∀ e ∈ ((s1.contextPool.map (fun e => e.1)).foldl releaseContext
      s1).pagePool, False := by
    intro e he
    have := foldl_releaseContext_pagePool_mem _ s1 e he
    rw [h1] at this
    exact List.not_mem_nil e this
  set s2 := (s1.contextPool.map (fun e => e.1)).foldl releaseContext s1
    with hs2
  have h4 : s2.pagePool = [] := by
    cases hp : s2.pagePool with
    | nil => rfl
    | cons e es => exact absurd (h3 e (by rw [hp]; exact List.mem_cons_self e es)) not_false
  have hrw : closeAll s
      = if s2.hasBrowser = true then
          { s2 with closedBrowsers := s2.browserHandle :: s2.closedBrowsers,
                    browserConnected := false, isInitialized := false }
        else s2 := rfl
  rw [hrw]
  by_cases hbr : s2.hasBrowser = true <;> simp [hbr, h2, h4]

theorem closeAll_fields (s : PwState) :
    (closeAll s).hasBrowser = s.hasBrowser ∧
    (closeAll s).browserHandle = s.browserHandle ∧
    (closeAll s).selectedBrowserOption = s.selectedBrowserOption ∧
    (closeAll s).nextId = s.nextId ∧
    (s.hasBrowser = true →
      (closeAll s).isInitialized = false ∧
      s.browserHandle ∈ (closeAll s).closedBrowsers) := by
  obtain ⟨p1, p2, p3, p4, p5, p6, p7, p8⟩ := foldl_releasePage_fields s
    (s.pagePool.map (fun e => e.1))
  set s1 := (s.pagePool.map (fun e => e.1)).foldl releasePage s with hs1
  obtain ⟨c1, c2, c3, c4, c5, c6, c7⟩ := foldl_releaseContext_fields s1
    (s1.contextPool.map (fun e => e.1))
  set s2 := (s1.contextPool.map (fun e => e.1)).foldl releaseContext s1
    with hs2
  have hb : s2.hasBrowser = s.hasBrowser := c1.trans p2
  have hh : s2.browserHandle = s.browserHandle := c2.trans p3
  have hsel : s2.selectedBrowserOption = s.selectedBrowserOption :=
    c4.trans p5
  have hn : s2.nextId = s.nextId := c6.trans p7
  have hrw : closeAll s
      = if s2.hasBrowser = true then
          { s2 with closedBrowsers := s2.browserHandle :: s2.closedBrowsers,
                    browserConnected := false, isInitialized := false }
        else s2 := rfl
  rw [hrw]
  by_cases hbr : s2.hasBrowser = true
  · rw [if_pos hbr]
    refine ⟨hb, hh, hsel, hn, fun _ => ⟨rfl, ?_⟩⟩
    rw [hh]
    exact List.mem_cons_self _ _
  · rw [if_neg hbr]
    refine ⟨hb, hh, hsel, hn, fun hs => absurd (hb.trans hs) hbr⟩

/-! ## Browser initialization and context creation lemmas -/

theorem BrowserOption.name_inj (a b : BrowserOption) (h : a.name = b.name) :
    a = b := by
  cases a <;> cases b <;> first | rfl | simp [BrowserOption.name] at h

theorem initializeBrowser_nextId (s : PwState) :
    s.nextId ≤ (initializeBrowser s).state.nextId := by
  have hc := (closeAll_fields s).2.2.2.1
  unfold initializeBrowser launchBrowser
  by_cases hi : s.isInitialized = true <;>
    by_cases hd : ¬ s.browserEngine.name = s.selectedBrowserOption.name <;>
      simp [hi, hd, hc]

theorem ensureBrowser_nextId (s : PwState) :
    s.nextId ≤ (ensureBrowser s).nextId := by
  unfold ensureBrowser
  by_cases hi : s.isInitialized = true
  · simp [hi]
  · simp [hi, initializeBrowser_nextId s]

theorem ensureContext_nextId (s : PwState) (cid : String) :
    s.nextId ≤ (ensureContext s cid).nextId := by
  unfold ensureContext
  by_cases h : (alistGet s.contextPool cid).isSome <;> simp [h]

theorem ensureContext_get (s : PwState) (cid : String) :
    (alistGet (ensureContext s cid).contextPool cid).isSome := by
  unfold ensureContext
  by_cases h : (alistGet s.contextPool cid).isSome
  · simpa [h] using h
  · simp [h, alistGet_alistSet]

theorem getOrCreateContext_ok (s : PwState) (cid : String) :
    ∃ ctx s', getOrCreateContext s cid = .ok (ctx, s')
      ∧ s.nextId ≤ s'.nextId := by
  obtain ⟨ctx, hctx⟩ := Option.isSome_iff_exists.mp
    (ensureContext_get (ensureBrowser s) cid)
  refine ⟨ctx, ensureContext (ensureBrowser s) cid, ?_, ?_⟩
  · unfold getOrCreateContext
    rw [hctx]
  · exact le_trans (ensureBrowser_nextId s) (ensureContext_nextId _ cid)

theorem createPage_ok (s : PwState) (cid pid : String) :
    ∃ pg s', createPage s cid pid = .ok (pg, s') ∧ s.nextId ≤ pg.handle := by
  obtain ⟨ctx, s1, hok, hle⟩ := getOrCreateContext_ok s cid
  refine ⟨{ handle := s1.nextId, ctxHandle := ctx },
    { s1 with nextId := s1.nextId + 1,
              pagePool := alistSet s1.pagePool pid
                { page := { handle := s1.nextId, ctxHandle := ctx },
                  contextId := cid } }, ?_, hle⟩
  unfold createPage
  rw [hok]

/-! ## Claim theorems: browser pool invariants -/

/-- C5: when `initializeBrowser` runs while a browser of engine `A` is
initialized and a different engine `B` is selected, it performs exactly one
full teardown then launches a new browser with engine `B`, leaving both
pools empty, the old browser closed, and `getBrowserInfo` reporting engine
`B` with zero carried-over sessions/pages; when the selected engine equals
the running one, the existing browser object and state are returned
unchanged. -/
theorem initializeBrowser_engine_switch (s : PwState)
    (hinit : s.isInitialized = true) (hbr : s.hasBrowser = true)
    (hdiff : ¬ s.browserEngine = s.selectedBrowserOption) :
    (initializeBrowser s).teardowns = 1 ∧
    (initializeBrowser s).state.pagePool = [] ∧
    (initializeBrowser s).state.contextPool = [] ∧
    (initializeBrowser s).state.browserEngine = s.selectedBrowserOption ∧
    (initializeBrowser s).state.isInitialized = true ∧
    s.browserHandle ∈ (initializeBrowser s).state.closedBrowsers ∧
    (initializeBrowser s).browser
      = (initializeBrowser s).state.browserHandle ∧
    getBrowserInfo (initializeBrowser s).state none
      = .initialized s.selectedBrowserOption.name 0 false [] [] ∧
    (∀ t : PwState, t.isInitialized = true →
      t.browserEngine = t.selectedBrowserOption →
      initializeBrowser t
        = { teardowns := 0, browser := t.browserHandle, state := t }) := by
  have hname : ¬ s.browserEngine.name = s.selectedBrowserOption.name :=
    fun h => hdiff (BrowserOption.name_inj _ _ h)
  obtain ⟨hpp, hcp⟩ := closeAll_pools s
  obtain ⟨hhb, hbh, hsel, hnid, hclose⟩ := closeAll_fields s
  obtain ⟨hii, hmem⟩ := hclose hbr
  have hrw : initializeBrowser s
      = { teardowns := 1,
          browser := (launchBrowser { closeAll s with isInitialized := false }).1,
          state := (launchBrowser { closeAll s with isInitialized := false }).2 } := by
    unfold initializeBrowser
    rw [if_pos hinit, if_pos hname]
  rw [hrw]
  refine ⟨rfl, ?_, ?_, ?_, rfl, ?_, rfl, ?_, ?_⟩
  · simpa [launchBrowser] using hpp
  · simpa [launchBrowser] using hcp
  · simp [launchBrowser, hsel]
  · simpa [launchBrowser] using hmem
  · simp [getBrowserInfo, launchBrowser, hsel, hpp, hcp]
  · intro t ht1 ht2
    unfold initializeBrowser
    rw [if_pos ht1, if_neg (by simp [ht2])]

/-- Witness for `initializeBrowser_engine_switch` at a chromium state with
firefox selected. -/
theorem initializeBrowser_engine_switch_witness :
    (initializeBrowser switchState).teardowns = 1 ∧
    (initializeBrowser switchState).state.pagePool = [] ∧
    (initializeBrowser switchState).state.contextPool = [] ∧
    (initializeBrowser switchState).state.browserEngine = .firefox := by
  have h := initializeBrowser_engine_switch switchState rfl rfl (by decide)
  exact ⟨h.1, h.2.1, h.2.2.1, h.2.2.2.1⟩

/-- C10: `getOrCreateContext` never raises its
`Failed to create or get context` construction error: whenever the
underlying context creation succeeds (as modelled — `newContext` returns a
fresh context), the pool is populated before the lookup, so the throwing
branch is unreachable, in both manager variants (whose `getOrCreateContext`
bodies are textually identical). -/
theorem getOrCreateContext_never_fails (s : PwState) (contextId : String) :
    (getOrCreateContext s contextId).isOk = true := by
  obtain ⟨ctx, s', hok, _⟩ := getOrCreateContext_ok s contextId
  rw [hok]
  rfl

theorem loginResolvePage_ok (s : PwState) (cid pid : String) :
    ∃ pg s', loginResolvePage s cid pid = .ok (pg, s') := by
  obtain ⟨cp, cs', hok, _⟩ := createPage_ok s cid pid
  unfold loginResolvePage
  cases hg : getPage s pid with
  | none => exact ⟨cp, cs', hok⟩
  | some p =>
    by_cases hc : pageIsClosed s p = true
    · exact ⟨cp, cs', by simp only [hc, if_true]; exact hok⟩
    · exact ⟨p, s, by simp [hc]⟩

/-- C2 counterexample: at `staleState` the pooled page of identifier `"p"`
has been closed, yet `getPage "p"` returns that closed page itself (it
never creates), and the `createParallelPages` reuse step returns it as
well — so a request resolving `"p"` after closure can yield the closed
page, not a newly created one. -/
theorem getPage_returns_closed_page :
    getPage staleState "p" = some stalePage ∧
    pageIsClosed staleState stalePage = true ∧
    parallelPageResolve staleState "c" "p" = .ok (stalePage, staleState) :=
  ⟨rfl, rfl, rfl⟩

/-- C2 (amended): only the login flows' page reuse checks closure — when
the pooled page for `p` has been closed, `loginToOnchSite` /
`loginToCoupangSite` create a new page with a fresh handle, distinct from
the closed one; `getPage`, by contrast, returns the pooled page even when
closed (or `null` when absent, never creating), and `createParallelPages`
reuses a pooled page of matching context without any closure check. -/
theorem closed_page_replacement (s : PwState) (cid pid : String)
    (pi : PageInfo) (hpool : alistGet s.pagePool pid = some pi)
    (hclosed : pageIsClosed s pi.page = true)
    (hfresh : pi.page.handle < s.nextId) :
    (∃ pg s', loginResolvePage s cid pid = .ok (pg, s') ∧
        s.nextId ≤ pg.handle ∧ ¬ pg = pi.page) ∧
    getPage s pid = some pi.page ∧
    (pi.contextId = cid →
      parallelPageResolve s cid pid = .ok (pi.page, s)) := by
  have hget : getPage s pid = some pi.page := by
    unfold getPage
    rw [hpool]
    rfl
  refine ⟨?_, hget, ?_⟩
  · obtain ⟨pg, s', hok, hle⟩ := createPage_ok s cid pid
    refine ⟨pg, s', ?_, hle, ?_⟩
    · unfold loginResolvePage
      rw [hget]
      simp only [hclosed, if_true]
      exact hok
    · intro he
      rw [he] at hle
      omega
  · intro hcid
    unfold parallelPageResolve
    rw [hget, hpool]
    simp [hcid]

/-- Witness for `closed_page_replacement` at `staleState`. -/
theorem closed_page_replacement_witness :
    (∃ pg s', loginResolvePage staleState "c" "p" = .ok (pg, s') ∧
        staleState.nextId ≤ pg.handle ∧ ¬ pg = stalePage) ∧
    getPage staleState "p" = some stalePage := by
  have h := closed_page_replacement staleState "c" "p"
    { page := stalePage, contextId := "c" } rfl rfl (by decide)
  exact ⟨h.1, h.2.1⟩

/-- C7: `getBrowserInfo` returns `not_initialized` exactly when the
initialized flag is unset; otherwise (in both manager variants) the
snapshot's `isConnected` field is the logical negation of the underlying
browser's is-connected signal, and a throwing introspection call yields
`{status: error, message}`. -/
theorem getBrowserInfo_spec (s : PwState) (fault : Option String) :
    (getBrowserInfo s fault = .notInitialized ↔ s.isInitialized = false) ∧
    (s.isInitialized = true →
      getBrowserInfo s none
        = .initialized s.browserEngine.name s.browserContexts
            (! s.browserConnected)
            (s.contextPool.map (fun e => e.1))
            (s.pagePool.map (fun e => e.1))) ∧
    (s.isInitialized = true →
      ∀ msg, getBrowserInfo s (some msg) = .error msg) ∧
    pmGetBrowserInfo s fault = getBrowserInfo s fault := by
  refine ⟨⟨?_, ?_⟩, ?_, ?_, rfl⟩
  · intro h
    by_cases hi : s.isInitialized = true
    · exfalso
      cases fault <;> simp [getBrowserInfo, hi] at h
    · simpa using hi
  · intro h
    simp [getBrowserInfo, h]
  · intro hi
    simp [getBrowserInfo, hi]
  · intro hi msg
    simp [getBrowserInfo, hi]

/-- Witness for `getBrowserInfo_spec` at `staleState` (initialized,
connected browser: the reported flag is the inverted `false`). -/
theorem getBrowserInfo_spec_witness :
    getBrowserInfo staleState none
      = .initialized "chromium" 1 false ["c"] ["p"] ∧
    getBrowserInfo staleState (some "boom") = .error "boom" :=
  ⟨(getBrowserInfo_spec staleState none).2.1 rfl,
   (getBrowserInfo_spec staleState (some "boom")).2.2.1 rfl "boom"⟩

/-- C8: in `loginToCoupangSite` (both variants), when the `.cp-loginpage__bg`
detector finds no element, the flow returns the resolved page with only the
navigation and detector-evaluation actions performed: no `#username` or
`#password` fill and no Enter key press. -/
theorem loginToCoupangSite_short_circuit (s : PwState) (cid pid : String)
    (engine : BrowserOption) (email password : String) :
    (∃ page s1, loginToCoupangSite s cid pid engine false email password
        = .ok (page, s1, [.goto coupangAuthUrl, .evalLoginCheck])) ∧
    coupangLoginSteps false email password
      = [.goto coupangAuthUrl, .evalLoginCheck] ∧
    pmCoupangLoginSteps false email password
      = [.goto coupangAuthUrl, .evalLoginCheck] ∧
    (∀ sel v, PageAction.fill sel v ∉ coupangLoginSteps false email password) ∧
    (∀ key, PageAction.press key ∉ coupangLoginSteps false email password) ∧
    (∀ sel v,
      PageAction.fill sel v ∉ pmCoupangLoginSteps false email password) ∧
    (∀ key, PageAction.press key ∉ pmCoupangLoginSteps false email password) := by
  refine ⟨?_, rfl, rfl, ?_, ?_, ?_, ?_⟩
  · obtain ⟨pg, s1, hok⟩ :=
      loginResolvePage_ok (loginEnsureEngine s engine) cid pid
    refine ⟨pg, s1, ?_⟩
    unfold loginToCoupangSite
    rw [hok]
    rfl
  · intro sel v h
    simp [coupangLoginSteps] at h
  · intro key h
    simp [coupangLoginSteps] at h
  · intro sel v h
    simp [pmCoupangLoginSteps] at h
  · intro key h
    simp [pmCoupangLoginSteps] at h

theorem createClient_miss (s : RabbitState) (q : String) (cs : Bool)
    (h : alistGet s.clients q = none) :
    createClient s q cs
      = { client := s.nextClient,
          state := { clients := alistSet s.clients q
                       { client := s.nextClient, connected := true },
                     nextClient := s.nextClient + 1 },
          constructions := 1, reconnectAttempts := 0 } := by
  unfold createClient
  rw [h]

theorem createClient_hit_connected (s : RabbitState) (q : String) (cs : Bool)
    (info : ClientInfo) (h : alistGet s.clients q = some info)
    (hc : info.connected = true) :
    createClient s q cs
      = { client := info.client, state := s,
          constructions := 0, reconnectAttempts := 0 } := by
  unfold createClient
  rw [h]
  simp [hc]

theorem createClient_hit_disconnected (s : RabbitState) (q : String)
    (cs : Bool) (info : ClientInfo) (h : alistGet s.clients q = some info)
    (hc : info.connected = false) :
    createClient s q cs
      = { client := info.client,
          state := reconnectClient s q info.client cs,
          constructions := 0, reconnectAttempts := 1 } := by
  unfold createClient
  rw [h]
  simp [hc]

/-- Witness for `loginToCoupangSite_short_circuit` at `staleState` with
concrete credentials. -/
theorem loginToCoupangSite_short_circuit_witness :
    coupangLoginSteps false "e@x" "pw"
      = [.goto coupangAuthUrl, .evalLoginCheck] ∧
    pmCoupangLoginSteps false "e@x" "pw"
      = [.goto coupangAuthUrl, .evalLoginCheck] ∧
    PageAction.press "Enter" ∉ coupangLoginSteps false "e@x" "pw" :=
  ⟨(loginToCoupangSite_short_circuit staleState "c" "p" .chromium "e@x"
      "pw").2.1,
   (loginToCoupangSite_short_circuit staleState "c" "p" .chromium "e@x"
      "pw").2.2.1,
   (loginToCoupangSite_short_circuit staleState "c" "p" .chromium "e@x"
      "pw").2.2.2.2.1 "Enter"⟩

/-- C6: the messaging service holds at most one client per queue: a cache
miss constructs exactly one client and caches it connected; a cache hit
constructs nothing and returns the cached client, first performing exactly
one reconnect attempt when the entry is marked disconnected; a failed
reconnect leaves the state unchanged (flag still false) so the next call
attempts exactly one reconnect again; and two `emit` calls naming the same
queue construct the underlying client exactly once in total. -/
theorem createClient_caching {P : Type} (s : RabbitState) (q : String)
    (cs cs2 : Bool) (payload : P) :
    (alistGet s.clients q = none →
      (createClient s q cs).constructions = 1 ∧
      (createClient s q cs).reconnectAttempts = 0 ∧
      (createClient s q cs).client = s.nextClient ∧
      alistGet (createClient s q cs).state.clients q
        = some { client := s.nextClient, connected := true }) ∧
    (∀ info, alistGet s.clients q = some info → info.connected = true →
      createClient s q cs
        = { client := info.client, state := s,
            constructions := 0, reconnectAttempts := 0 }) ∧
    (∀ info, alistGet s.clients q = some info → info.connected = false →
      (createClient s q cs).constructions = 0 ∧
      (createClient s q cs).reconnectAttempts = 1 ∧
      (createClient s q cs).client = info.client ∧
      (cs = false → (createClient s q cs).state = s ∧
        (createClient (createClient s q cs).state q cs2).reconnectAttempts
          = 1)) ∧
    (alistGet s.clients q = none → ∀ p1 p2 : String,
      (emit s q p1 payload cs).constructions
        + (emit (emit s q p1 payload cs).state q p2 payload
            cs2).constructions = 1) := by
  refine ⟨?_, ?_, ?_, ?_⟩
  · intro h
    rw [createClient_miss s q cs h]
    exact ⟨rfl, rfl, rfl, alistGet_alistSet q _ s.clients⟩
  · intro info h hc
    exact createClient_hit_connected s q cs info h hc
  · intro info h hc
    have hrw := createClient_hit_disconnected s q cs info h hc
    refine ⟨by rw [hrw], by rw [hrw], by rw [hrw], ?_⟩
    intro hcs
    have hst : (createClient s q cs).state = s := by
      rw [hrw, hcs]
      rfl
    refine ⟨hst, ?_⟩
    rw [hst, createClient_hit_disconnected s q cs2 info h hc]
  · intro h p1 p2
    have h1 := createClient_miss s q cs h
    have hlook : alistGet (createClient s q cs).state.clients q
        = some { client := s.nextClient, connected := true } := by
      rw [h1]
      exact alistGet_alistSet q _ s.clients
    have h2 := createClient_hit_connected (createClient s q cs).state q cs2
      { client := s.nextClient, connected := true } hlook rfl
    have he1 : (emit s q p1 payload cs).constructions = 1 := by
      show (createClient s q cs).constructions = 1
      rw [h1]
    have he2 : (emit (emit s q p1 payload cs).state q p2 payload
        cs2).constructions = 0 := by
      show (createClient (emit s q p1 payload cs).state q cs2).constructions
        = 0
      have hs : (emit s q p1 payload cs).state = (createClient s q cs).state :=
        rfl
      rw [hs, h2]
    omega

/-- Witness for `createClient_caching`: an empty cache, a
two-`emit` sequence, and a disconnected cached entry. -/
theorem createClient_caching_witness :
    (createClient ⟨[], 0⟩ "orders" true).constructions = 1 ∧
    (emit (⟨[], 0⟩ : RabbitState) "orders" "p1" (0 : Nat) true).constructions
      + (emit (emit (⟨[], 0⟩ : RabbitState) "orders" "p1" (0 : Nat)
          true).state "orders" "p2" (0 : Nat) true).constructions = 1 ∧
    (createClient ⟨[("orders", ⟨5, false⟩)], 7⟩ "orders"
        false).reconnectAttempts = 1 := by
  have h := createClient_caching (P := Nat) ⟨[], 0⟩ "orders" true true 0
  have h2 := createClient_caching (P := Nat) ⟨[("orders", ⟨5, false⟩)], 7⟩
    "orders" false true 0
  exact ⟨(h.1 rfl).1, h.2.2.2 rfl "p1" "p2",
    (h2.2.2.1 ⟨5, false⟩ rfl rfl).2.1⟩

/-- C9: both `emit` and `send` pass the queue name itself as the
transport-level message pattern of the dispatched message, placing the
caller's pattern only inside the `{pattern, payload}` envelope; two calls
differing only in pattern but sharing a queue dispatch under the identical
transport-level pattern. -/
theorem emit_send_transport_pattern {P : Type} (s : RabbitState)
    (q p1 p2 : String) (payload : P) (cs : Bool) :
    (emit s q p1 payload cs).message.transportPattern = q ∧
    (emit s q p1 payload cs).message.envelope.pattern = p1 ∧
    (emit s q p1 payload cs).message.envelope.payload = payload ∧
    (send s q p1 payload cs).message.transportPattern = q ∧
    (send s q p1 payload cs).message.envelope.pattern = p1 ∧
    (send s q p1 payload cs).message.envelope.payload = payload ∧
    (emit s q p1 payload cs).message.transportPattern
      = (emit s q p2 payload cs).message.transportPattern ∧
    (send s q p1 payload cs).message.transportPattern
      = (send s q p2 payload cs).message.transportPattern :=
  ⟨rfl, rfl, rfl, rfl, rfl, rfl, rfl, rfl⟩

end AutoStore
